import Mathlib

/-!
Verification of the todo server in `src/server/index.js`.

The server keeps an in-memory store (`todos`, an array of todo objects, and
`nextId`, a counter) and exposes CRUD handlers over it.  This file is a
shallow embedding of that code:

* `Todo`, `Store` mirror the data held by the server; timestamps are the
  ISO strings produced by `new Date().toISOString()` and are modelled as
  opaque strings, with the current time passed to each handler as a `now`
  parameter.
* `parseIntJS` embeds JavaScript's `parseInt(s)` (no radix argument):
  leading whitespace is skipped, an optional sign is read, a leading
  `0x`/`0X` switches to hexadecimal, and the longest digit prefix is
  converted; if there is none the result is `NaN`, modelled as `none`.
* Each Express handler becomes a function `Store → … → Resp × Store`
  returning the HTTP response and the store after the request.
* The snapshot file is modelled at the level of the JSON value written by
  `JSON.stringify({ todos, nextId })`; `loadData` embeds the field accesses
  and `||` fallbacks with which `loadData` in the source reads it back.
-/

namespace TodoServer

/-- Todo item as stored by the server.  Fields follow the object literal
built in the POST handler. -/
structure Todo where
  id : Nat
  title : String
  description : String
  completed : Bool
  createdAt : String
  updatedAt : String
deriving DecidableEq

/-- In-memory state of the server: the `todos` array and the `nextId`
counter (`let todos = []; let nextId = 1;`). -/
structure Store where
  todos : List Todo
  nextId : Nat
deriving DecidableEq

/-- Initial state of a fresh process: empty array, counter 1. -/
def initStore : Store := { todos := [], nextId := 1 }

/-- Request body for POST/PUT, after `express.json()`: the three fields the
handlers destructure, each possibly absent. -/
structure ReqBody where
  title : Option String
  description : Option String
  completed : Option Bool
deriving DecidableEq

/-- Response sent by a handler: HTTP status plus the JSON envelope
`{ success, data?, message? }`. -/
structure Resp where
  status : Nat
  success : Bool
  data : Option Todo
  message : Option String
deriving DecidableEq

/-! ### JavaScript `parseInt` -/

/-- Whitespace characters skipped by `parseInt` (the common ASCII ones). -/
def isJsWhitespace (c : Char) : Bool :=
  c == ' ' || c == '\t' || c == '\n' || c == '\r' || c == '\x0b' || c == '\x0c'

/-- Optional sign at the front of the numeral. -/
def parseSign (cs : List Char) : Int × List Char :=
  match cs with
  | [] => (1, [])
  | c :: rest => if c == '-' then (-1, rest) else if c == '+' then (1, rest) else (1, cs)

/-- Hexadecimal digit test used once a `0x` prefix has been seen. -/
def isHexDigitJs (c : Char) : Bool :=
  c.isDigit || ('a' ≤ c && c ≤ 'f') || ('A' ≤ c && c ≤ 'F')

/-- Numeric value of a decimal digit character. -/
def digitVal (c : Char) : Nat := c.toNat - '0'.toNat

/-- Numeric value of a hexadecimal digit character. -/
def hexDigitVal (c : Char) : Nat :=
  if c.isDigit then digitVal c
  else if 'a' ≤ c && c ≤ 'f' then c.toNat - 'a'.toNat + 10
  else c.toNat - 'A'.toNat + 10

/-- Value of a digit string in the given base. -/
def digitsToNat (base : Nat) (val : Char → Nat) (ds : List Char) : Nat :=
  ds.foldl (fun acc c => acc * base + val c) 0

/-- Detection of the `0x`/`0X` radix marker after sign removal. -/
def startsHex (cs : List Char) : Bool :=
  match cs with
  | c0 :: c1 :: _ => c0 == '0' && (c1 == 'x' || c1 == 'X')
  | _ => false

/-- Longest decimal-digit run at the front; empty run means `NaN`. -/
def parseDecDigits (sgn : Int) (cs : List Char) : Option Int :=
  let ds := cs.takeWhile Char.isDigit
  if ds.isEmpty then none else some (sgn * (digitsToNat 10 digitVal ds : Nat))

/-- Longest hexadecimal-digit run at the front; empty run means `NaN`. -/
def parseHexDigits (sgn : Int) (cs : List Char) : Option Int :=
  let ds := cs.takeWhile isHexDigitJs
  if ds.isEmpty then none else some (sgn * (digitsToNat 16 hexDigitVal ds : Nat))

/-- JavaScript `parseInt(s)` with no radix argument; `none` is `NaN`.  The
handlers compare the result against todo ids with `===`, and `NaN` compares
unequal to everything. -/
def parseIntJS (s : String) : Option Int :=
  let cs := s.data.dropWhile isJsWhitespace
  let sp := parseSign cs
  if startsHex sp.2 then parseHexDigits sp.1 (sp.2.drop 2)
  else parseDecDigits sp.1 sp.2

/-! ### Handlers -/

/-- Predicate behind `t.id === id`: a `NaN` id (`none`) matches nothing. -/
def idMatches (oid : Option Int) (t : Todo) : Bool :=
  match oid with
  | none => false
  | some n => (t.id : Int) == n

/-- JavaScript `Array.prototype.findIndex`, with `-1` rendered as `none`. -/
def findIndexJs (p : α → Bool) : List α → Option Nat
  | [] => none
  | x :: xs => if p x then some 0 else (findIndexJs p xs).map (· + 1)

/-- Response of every handler when no todo has the requested id. -/
def notFoundResp : Resp :=
  { status := 404, success := false, data := none, message := some "Todo not found" }

/-- GET `/api/todos/:id`. -/
def getTodo (s : Store) (param : String) : Resp × Store :=
  let oid := parseIntJS param
  match s.todos.find? (idMatches oid) with
  | none => (notFoundResp, s)
  | some t => ({ status := 200, success := true, data := some t, message := none }, s)

/-- JavaScript `description || ''` on the already-destructured field. -/
def strOr (v : Option String) : String :=
  match v with
  | none => ""
  | some d => if d = "" then "" else d

/-- POST `/api/todos`.  `if (!title)` rejects an absent or empty title;
otherwise a new todo is pushed and the counter is bumped (`id: nextId++`). -/
def createTodo (s : Store) (b : ReqBody) (now : String) : Resp × Store :=
  match b.title with
  | none =>
      ({ status := 400, success := false, data := none,
         message := some "Title is required" }, s)
  | some t =>
      if t = "" then
        ({ status := 400, success := false, data := none,
           message := some "Title is required" }, s)
      else
        let newTodo : Todo :=
          { id := s.nextId, title := t, description := strOr b.description,
            completed := false, createdAt := now, updatedAt := now }
        ({ status := 201, success := true, data := some newTodo, message := none },
         { todos := s.todos ++ [newTodo], nextId := s.nextId + 1 })

/-- Object built by the PUT handler: spread of the old todo, then each patch
field only when it is not `undefined`, then a fresh `updatedAt`. -/
def applyPatch (old : Todo) (b : ReqBody) (now : String) : Todo :=
  { old with
    title := b.title.getD old.title
    description := b.description.getD old.description
    completed := b.completed.getD old.completed
    updatedAt := now }

/-- PUT `/api/todos/:id`.  The inner `none` branch mirrors `todos[todoIndex]`
and is unreachable because `findIndexJs` only returns in-range indices. -/
def updateTodo (s : Store) (param : String) (b : ReqBody) (now : String) : Resp × Store :=
  let oid := parseIntJS param
  match findIndexJs (idMatches oid) s.todos with
  | none => (notFoundResp, s)
  | some i =>
      match s.todos[i]? with
      | none => (notFoundResp, s)
      | some old =>
          let upd := applyPatch old b now
          ({ status := 200, success := true, data := some upd, message := none },
           { s with todos := s.todos.set i upd })

/-- Mutation performed by the toggle handler on the found todo. -/
def togglePatch (old : Todo) (now : String) : Todo :=
  { old with completed := !old.completed, updatedAt := now }

/-- PATCH `/api/todos/:id/toggle`. -/
def toggleTodo (s : Store) (param : String) (now : String) : Resp × Store :=
  let oid := parseIntJS param
  match findIndexJs (idMatches oid) s.todos with
  | none => (notFoundResp, s)
  | some i =>
      match s.todos[i]? with
      | none => (notFoundResp, s)
      | some old =>
          let upd := togglePatch old now
          ({ status := 200, success := true, data := some upd, message := none },
           { s with todos := s.todos.set i upd })

/-- DELETE `/api/todos/:id` (`todos.splice(todoIndex, 1)`). -/
def deleteTodo (s : Store) (param : String) : Resp × Store :=
  let oid := parseIntJS param
  match findIndexJs (idMatches oid) s.todos with
  | none => (notFoundResp, s)
  | some i =>
      match s.todos[i]? with
      | none => (notFoundResp, s)
      | some old =>
          ({ status := 200, success := true, data := some old, message := none },
           { s with todos := s.todos.eraseIdx i })

/-- DELETE `/api/todos/completed/all`. -/
def deleteCompletedAll (s : Store) : Resp × Store :=
  let remaining := s.todos.filter (fun t => !t.completed)
  let deletedCount := s.todos.length - remaining.length
  ({ status := 200, success := true, data := none,
     message := some ("Deleted " ++ toString deletedCount ++ " completed todos") },
   { s with todos := remaining })

/-! ### Persistence

The snapshot file holds `JSON.stringify({ todos, nextId }, null, 2)`.  We
model the file content as the JSON value itself (serialising to text and
parsing back is the identity on JSON values).  `loadData` in the source is
untyped — `todos = parsed.todos || []` reuses the parsed objects directly —
so in this typed embedding reading the snapshot back into `Store` form is
the field-by-field decoding `decodeTodo`, the accesses with which the rest
of the program consumes each element. -/

/-- JSON values as produced by `JSON.parse`. -/
inductive Json where
  | null : Json
  | bool (b : Bool) : Json
  | num (n : Int) : Json
  | str (s : String) : Json
  | arr (xs : List Json) : Json
  | obj (fields : List (String × Json)) : Json

/-- Property access `j.k`; a missing key is `undefined`, rendered `none`. -/
def objGet (j : Json) (k : String) : Option Json :=
  match j with
  | .obj fields => fields.lookup k
  | _ => none

/-- JavaScript truthiness of a parsed JSON value (arrays and objects are
always truthy, also when empty). -/
def truthy : Json → Bool
  | .null => false
  | .bool b => b
  | .num n => n != 0
  | .str s => s != ""
  | .arr _ => true
  | .obj _ => true

/-- JavaScript `v || dflt` where `v` may be `undefined`. -/
def jsOr (v : Option Json) (dflt : Json) : Json :=
  match v with
  | some x => if truthy x then x else dflt
  | none => dflt

/-- Serialisation of one todo, each field under its literal name. -/
def todoToJson (t : Todo) : Json :=
  .obj [("id", .num t.id), ("title", .str t.title),
        ("description", .str t.description), ("completed", .bool t.completed),
        ("createdAt", .str t.createdAt), ("updatedAt", .str t.updatedAt)]

/-- Snapshot written by `saveData`: `JSON.stringify({ todos, nextId })`. -/
def saveData (s : Store) : Json :=
  .obj [("todos", .arr (s.todos.map todoToJson)), ("nextId", .num s.nextId)]

/-- Field accesses with which the program consumes a stored todo object. -/
def decodeTodo (j : Json) : Option Todo :=
  match objGet j "id", objGet j "title", objGet j "description",
        objGet j "completed", objGet j "createdAt", objGet j "updatedAt" with
  | some (.num i), some (.str ti), some (.str d), some (.bool c),
    some (.str ca), some (.str ua) =>
      match i with
      | .ofNat n => some { id := n, title := ti, description := d,
                           completed := c, createdAt := ca, updatedAt := ua }
      | .negSucc _ => none
  | _, _, _, _, _, _ => none

/-- Decoding of the stored `todos` array, element by element. -/
def decodeTodos : List Json → Option (List Todo)
  | [] => some []
  | j :: js =>
      match decodeTodo j, decodeTodos js with
      | some t, some ts => some (t :: ts)
      | _, _ => none

/-- Reading the snapshot back: `todos = parsed.todos || []` and
`nextId = parsed.nextId || 1`, then the decoding described above. -/
def loadData (j : Json) : Option Store :=
  let tv := jsOr (objGet j "todos") (.arr [])
  let nv := jsOr (objGet j "nextId") (.num 1)
  match tv, nv with
  | .arr xs, .num (.ofNat m) =>
      match decodeTodos xs with
      | some ts => some { todos := ts, nextId := m }
      | none => none
  | _, _ => none

/-! ### Operation sequences

Requests processed one after another by the single-threaded server,
starting from the empty store. -/

/-- One inbound request, with its body and the clock value during it. -/
inductive Op where
  | create (b : ReqBody) (now : String) : Op
  | update (param : String) (b : ReqBody) (now : String) : Op
  | toggle (param : String) (now : String) : Op
  | del (param : String) : Op
  | delCompleted : Op
  | get (param : String) : Op

/-- Store after handling one request. -/
def step (s : Store) : Op → Store
  | .create b now => (createTodo s b now).2
  | .update p b now => (updateTodo s p b now).2
  | .toggle p now => (toggleTodo s p now).2
  | .del p => (deleteTodo s p).2
  | .delCompleted => (deleteCompletedAll s).2
  | .get p => (getTodo s p).2

/-- Store after a whole request sequence, from the fresh-process state. -/
def run (ops : List Op) : Store := ops.foldl step initStore

/-- Condition under which the POST handler actually creates a todo. -/
def createOk (b : ReqBody) : Bool :=
  match b.title with
  | none => false
  | some t => !(t == "")

/-- Ids handed out by one request processed in state `s`: only a
successful create issues an id, namely the current `nextId`. -/
def issuedHere (s : Store) : Op → List Nat
  | .create b _ => if createOk b then [s.nextId] else []
  | .update _ _ _ => []
  | .toggle _ _ => []
  | .del _ => []
  | .delCompleted => []
  | .get _ => []

/-- Ids handed out by the POST handler along a request sequence started in
state `s`. -/
def issued (s : Store) : List Op → List Nat
  | [] => []
  | op :: ops => issuedHere s op ++ issued (step s op) ops

/-- Patch whose `title` entry, when present, is not the empty string. -/
def patchTitleOk : Op → Bool
  | .update _ b _ => !(b.title == some "")
  | _ => true

/-- Store invariant of §3 of the spec: ids are pairwise distinct and
`nextId` strictly dominates every id in the sequence. -/
def StoreInv (s : Store) : Prop :=
  (s.todos.map Todo.id).Nodup ∧ ∀ t ∈ s.todos, t.id < s.nextId

/-! ### Helper lemmas -/

/-- Writing `description || ''` is the same as defaulting an absent field to
the empty string. -/
lemma strOr_eq_getD (v : Option String) : strOr v = v.getD "" := by
  cases v with
  | none => rfl
  | some d =>
      by_cases h : d = "" <;> simp [strOr, h]

/-- Counting the removed elements by a length difference agrees with
counting the elements that satisfy the predicate. -/
lemma length_sub_length_filter_not {α : Type _} (p : α → Bool) (l : List α) :
    l.length - (l.filter (fun a => !p a)).length = l.countP p := by
  induction l with
  | nil => rfl
  | cons x xs ih =>
      have hle := List.length_filter_le (fun a => !p a) xs
      cases hx : p x with
      | false => simp [List.filter_cons, hx, List.countP_cons, ih.symm]
      | true => simp [List.filter_cons, hx, List.countP_cons, ih.symm]; omega

/-! ### C2: create with an absent or empty title -/

/-- C2: for every request body whose title is absent or the empty string,
create fails with 400 "Title is required" and the store is unchanged. -/
theorem c2_create_missing_title (s : Store) (b : ReqBody) (now : String)
    (h : b.title = none ∨ b.title = some "") :
    createTodo s b now =
      ({ status := 400, success := false, data := none,
         message := some "Title is required" }, s) := by
  rcases h with h | h <;> simp [createTodo, h]

/-- Witness for C2 at the empty body and a fresh store. -/
theorem c2_witness :
    createTodo { todos := [], nextId := 1 } { title := none, description := none, completed := none } "t0" =
      ({ status := 400, success := false, data := none,
         message := some "Title is required" }, { todos := [], nextId := 1 }) :=
  c2_create_missing_title _ _ _ (Or.inl rfl)

/-! ### C3: successful create -/

/-- C3: for every request body with a non-empty title, create appends one
new todo at the end with id equal to the prior `nextId`, the given title,
the description defaulted to the empty string when absent, `completed`
false and equal timestamps, increments `nextId`, and responds 201 with the
new todo as data. -/
theorem c3_create_success (s : Store) (b : ReqBody) (now : String) (t : String)
    (ht : b.title = some t) (hne : t ≠ "") :
    createTodo s b now =
      ({ status := 201, success := true,
         data := some { id := s.nextId, title := t,
                        description := b.description.getD "", completed := false,
                        createdAt := now, updatedAt := now },
         message := none },
       { todos := s.todos ++
           [{ id := s.nextId, title := t,
              description := b.description.getD "", completed := false,
              createdAt := now, updatedAt := now }],
         nextId := s.nextId + 1 }) := by
  simp [createTodo, ht, hne, strOr_eq_getD]

/-- Witness for C3: creating "Buy milk" in a fresh store yields id 1. -/
theorem c3_witness :
    createTodo { todos := [], nextId := 1 }
        { title := some "Buy milk", description := none, completed := none } "t0" =
      ({ status := 201, success := true,
         data := some { id := 1, title := "Buy milk", description := "",
                        completed := false, createdAt := "t0", updatedAt := "t0" },
         message := none },
       { todos := [{ id := 1, title := "Buy milk", description := "",
                     completed := false, createdAt := "t0", updatedAt := "t0" }],
         nextId := 2 }) :=
  c3_create_success _ _ _ _ rfl (by decide)

/-! ### C6: deleteCompleted -/

/-- C6: deleteCompleted removes exactly the completed todos, reports the
number removed in its message, leaves `nextId` alone, and when no todo is
completed it leaves the store unchanged (count 0). -/
theorem c6_delete_completed (s : Store) :
    (deleteCompletedAll s).2.todos = s.todos.filter (fun t => !t.completed) ∧
    (deleteCompletedAll s).2.nextId = s.nextId ∧
    (deleteCompletedAll s).1 =
      { status := 200, success := true, data := none,
        message := some ("Deleted " ++ toString (s.todos.countP (fun t => t.completed))
          ++ " completed todos") } ∧
    ((∀ t ∈ s.todos, t.completed = false) → (deleteCompletedAll s).2 = s) := by
  refine ⟨rfl, rfl, ?_, ?_⟩
  · simp [deleteCompletedAll, length_sub_length_filter_not]
  · intro h
    have : s.todos.filter (fun t => !t.completed) = s.todos :=
      List.filter_eq_self.mpr (fun t ht => by simp [h t ht])
    simp [deleteCompletedAll, this]

/-- Witness for C6 at a store with 2 of 5 todos completed: the message
reports 2 and 3 todos remain. -/
theorem c6_witness :
    (deleteCompletedAll
        { todos := [{ id := 1, title := "a", description := "", completed := false,
                      createdAt := "c", updatedAt := "u" },
                    { id := 2, title := "b", description := "", completed := true,
                      createdAt := "c", updatedAt := "u" },
                    { id := 3, title := "c", description := "", completed := false,
                      createdAt := "c", updatedAt := "u" },
                    { id := 4, title := "d", description := "", completed := true,
                      createdAt := "c", updatedAt := "u" },
                    { id := 5, title := "e", description := "", completed := false,
                      createdAt := "c", updatedAt := "u" }],
          nextId := 6 }).1 =
      { status := 200, success := true, data := none,
        message := some ("Deleted " ++ toString (2 : Nat) ++ " completed todos") } :=
  (c6_delete_completed _).2.2.1

/-! ### Not-found paths (C5, C9) -/

/-- Finding nothing when the predicate rejects every element. -/
lemma find?_eq_none_of_all {α : Type _} {p : α → Bool} {l : List α}
    (h : ∀ x ∈ l, p x = false) : l.find? p = none :=
  List.find?_eq_none.mpr (fun x hx => by simp [h x hx])

/-- The JavaScript findIndex analogue of the previous lemma. -/
lemma findIndexJs_eq_none_of_all {α : Type _} {p : α → Bool} {l : List α}
    (h : ∀ x ∈ l, p x = false) : findIndexJs p l = none := by
  induction l with
  | nil => rfl
  | cons x xs ih =>
      simp [findIndexJs, h x (by simp),
        ih (fun y hy => h y (by simp [hy]))]

/-- Shared shape of all four id-keyed handlers when no todo matches. -/
lemma handlers_not_found (s : Store) (param : String) (b : ReqBody) (now : String)
    (h : ∀ t ∈ s.todos, idMatches (parseIntJS param) t = false) :
    getTodo s param = (notFoundResp, s) ∧
    updateTodo s param b now = (notFoundResp, s) ∧
    toggleTodo s param now = (notFoundResp, s) ∧
    deleteTodo s param = (notFoundResp, s) := by
  have h1 := find?_eq_none_of_all h
  have h2 := findIndexJs_eq_none_of_all h
  exact ⟨by simp [getTodo, h1], by simp [updateTodo, h2],
         by simp [toggleTodo, h2], by simp [deleteTodo, h2]⟩

/-- C5: when no todo carries the requested id, each of get, update, toggle
and delete responds 404 "Todo not found" and leaves the store unchanged;
deleting an already-deleted id therefore also yields this response. -/
theorem c5_not_found (s : Store) (param : String) (b : ReqBody) (now : String)
    (h : ∀ t ∈ s.todos, idMatches (parseIntJS param) t = false) :
    getTodo s param =
      ({ status := 404, success := false, data := none,
         message := some "Todo not found" }, s) ∧
    updateTodo s param b now =
      ({ status := 404, success := false, data := none,
         message := some "Todo not found" }, s) ∧
    toggleTodo s param now =
      ({ status := 404, success := false, data := none,
         message := some "Todo not found" }, s) ∧
    deleteTodo s param =
      ({ status := 404, success := false, data := none,
         message := some "Todo not found" }, s) :=
  handlers_not_found s param b now h

/-- Witness for C5: id 999 against a store holding only id 1. -/
theorem c5_witness :
    getTodo { todos := [{ id := 1, title := "a", description := "",
                          completed := false, createdAt := "c", updatedAt := "u" }],
              nextId := 2 } "999" =
      ({ status := 404, success := false, data := none,
         message := some "Todo not found" },
       { todos := [{ id := 1, title := "a", description := "",
                     completed := false, createdAt := "c", updatedAt := "u" }],
         nextId := 2 }) :=
  (c5_not_found _ "999" { title := none, description := none, completed := none }
    "t" (by decide)).1

/-- C9: a `:id` that `parseInt` turns into `NaN` matches no todo, so all
four id-keyed handlers answer 404 (not 400) and the store is unchanged. -/
theorem c9_non_numeric_id (s : Store) (param : String) (b : ReqBody) (now : String)
    (h : parseIntJS param = none) :
    getTodo s param =
      ({ status := 404, success := false, data := none,
         message := some "Todo not found" }, s) ∧
    updateTodo s param b now =
      ({ status := 404, success := false, data := none,
         message := some "Todo not found" }, s) ∧
    toggleTodo s param now =
      ({ status := 404, success := false, data := none,
         message := some "Todo not found" }, s) ∧
    deleteTodo s param =
      ({ status := 404, success := false, data := none,
         message := some "Todo not found" }, s) := by
  refine handlers_not_found s param b now ?_
  intro t _
  rw [h]
  rfl

/-- Witness for C9 at the non-numeric id "abc". -/
theorem c9_witness :
    deleteTodo { todos := [{ id := 1, title := "a", description := "",
                             completed := false, createdAt := "c", updatedAt := "u" }],
                 nextId := 2 } "abc" =
      ({ status := 404, success := false, data := none,
         message := some "Todo not found" },
       { todos := [{ id := 1, title := "a", description := "",
                     completed := false, createdAt := "c", updatedAt := "u" }],
         nextId := 2 }) :=
  (c9_non_numeric_id _ "abc" { title := none, description := none, completed := none }
    "t" (by decide)).2.2.2

/-! ### C4: partial update -/

/-- C4: when a todo with the requested id sits at position `i`, update
replaces exactly that position with the patched todo and keeps `nextId`;
the patched todo takes each field from the patch when present and from the
old todo otherwise, always takes the fresh `updatedAt`, and keeps `id` and
`createdAt`. -/
theorem c4_update_partial_patch (s : Store) (param : String) (b : ReqBody)
    (now : String) (i : Nat) (old : Todo)
    (hi : findIndexJs (idMatches (parseIntJS param)) s.todos = some i)
    (hold : s.todos[i]? = some old) :
    updateTodo s param b now =
      ({ status := 200, success := true, data := some (applyPatch old b now),
         message := none },
       { todos := s.todos.set i (applyPatch old b now), nextId := s.nextId }) ∧
    (applyPatch old b now).updatedAt = now ∧
    (applyPatch old b now).id = old.id ∧
    (applyPatch old b now).createdAt = old.createdAt ∧
    (b.title = none → (applyPatch old b now).title = old.title) ∧
    (∀ x, b.title = some x → (applyPatch old b now).title = x) ∧
    (b.description = none → (applyPatch old b now).description = old.description) ∧
    (∀ x, b.description = some x → (applyPatch old b now).description = x) ∧
    (b.completed = none → (applyPatch old b now).completed = old.completed) ∧
    (∀ x, b.completed = some x → (applyPatch old b now).completed = x) := by
  refine ⟨by simp [updateTodo, hi, hold], rfl, rfl, rfl, ?_, ?_, ?_, ?_, ?_, ?_⟩
  · intro hx; simp [applyPatch, hx]
  · intro x hx; simp [applyPatch, hx]
  · intro hx; simp [applyPatch, hx]
  · intro x hx; simp [applyPatch, hx]
  · intro hx; simp [applyPatch, hx]
  · intro x hx; simp [applyPatch, hx]

/-- Witness for C4: patching only `completed` on the single stored todo. -/
theorem c4_witness :
    updateTodo { todos := [{ id := 1, title := "a", description := "d",
                             completed := false, createdAt := "c", updatedAt := "u" }],
                 nextId := 2 } "1"
        { title := none, description := none, completed := some true } "u2" =
      ({ status := 200, success := true,
         data := some { id := 1, title := "a", description := "d",
                        completed := true, createdAt := "c", updatedAt := "u2" },
         message := none },
       { todos := [{ id := 1, title := "a", description := "d",
                     completed := true, createdAt := "c", updatedAt := "u2" }],
         nextId := 2 }) :=
  (c4_update_partial_patch _ "1" _ "u2" 0
    { id := 1, title := "a", description := "d", completed := false,
      createdAt := "c", updatedAt := "u" }
    (by decide) (by decide)).1

/-! ### C1: snapshot round-trip -/

/-- Decoding inverts the serialisation of a single todo. -/
lemma decodeTodo_todoToJson (t : Todo) : decodeTodo (todoToJson t) = some t := by
  simp [decodeTodo, todoToJson, objGet, List.lookup]

/-- Decoding inverts the serialisation of the whole todos array. -/
lemma decodeTodos_map (l : List Todo) : decodeTodos (l.map todoToJson) = some l := by
  induction l with
  | nil => rfl
  | cons t ts ih => simp [decodeTodos, decodeTodo_todoToJson, ih]

/-- C1: for every store state with `nextId ≥ 1`, saving and then loading
the snapshot reproduces exactly the same todos, in order, and the same
`nextId`. -/
theorem c1_roundtrip (s : Store) (h : 1 ≤ s.nextId) :
    loadData (saveData s) = some s := by
  have hn0 : ¬((s.nextId : Int) = 0) := by omega
  simp [loadData, saveData, objGet, List.lookup, jsOr, truthy, hn0, decodeTodos_map]

/-- Witness for C1 at a one-element store. -/
theorem c1_witness :
    loadData (saveData { todos := [{ id := 1, title := "a", description := "",
                                     completed := true, createdAt := "c",
                                     updatedAt := "u" }],
                         nextId := 2 }) =
      some { todos := [{ id := 1, title := "a", description := "",
                         completed := true, createdAt := "c", updatedAt := "u" }],
             nextId := 2 } :=
  c1_roundtrip _ (by decide)

/-! ### C7: id uniqueness and monotone `nextId` -/

/-- Setting position `i` to a todo with the same id leaves the id sequence
unchanged. -/
lemma map_id_set (upd : Todo) {l : List Todo} {i : Nat} {old : Todo}
    (h : l[i]? = some old) (hid : upd.id = old.id) :
    (l.set i upd).map Todo.id = l.map Todo.id := by
  induction l generalizing i with
  | nil => simp at h
  | cons x xs ih =>
      cases i with
      | zero =>
          simp at h
          subst h
          simp [List.set, hid]
      | succ n =>
          simp at h
          simp [List.set, ih h]

/-- A found index points at an element satisfying the predicate. -/
lemma findIndexJs_some {α : Type _} {p : α → Bool} {l : List α} {i : Nat}
    (h : findIndexJs p l = some i) : ∃ x, l[i]? = some x ∧ p x = true := by
  induction l generalizing i with
  | nil => simp [findIndexJs] at h
  | cons x xs ih =>
      by_cases hp : p x
      · simp [findIndexJs, hp] at h
        exact h ▸ ⟨x, by simp, hp⟩
      · simp [findIndexJs, hp] at h
        cases hf : findIndexJs p xs with
        | none => rw [hf] at h; simp at h
        | some j =>
            rw [hf] at h
            simp at h
            obtain ⟨y, hy, hpy⟩ := ih hf
            exact ⟨y, by simp [← h, hy], hpy⟩

/-- GET leaves the store untouched. -/
lemma getTodo_state (s : Store) (p : String) : (getTodo s p).2 = s := by
  simp only [getTodo]
  split <;> rfl

/-- PUT leaves the counter untouched. -/
lemma updateTodo_nextId (s : Store) (p : String) (b : ReqBody) (now : String) :
    (updateTodo s p b now).2.nextId = s.nextId := by
  simp only [updateTodo]
  split
  · rfl
  · split <;> rfl

/-- Toggle leaves the counter untouched. -/
lemma toggleTodo_nextId (s : Store) (p : String) (now : String) :
    (toggleTodo s p now).2.nextId = s.nextId := by
  simp only [toggleTodo]
  split
  · rfl
  · split <;> rfl

/-- Delete leaves the counter untouched. -/
lemma deleteTodo_nextId (s : Store) (p : String) :
    (deleteTodo s p).2.nextId = s.nextId := by
  simp only [deleteTodo]
  split
  · rfl
  · split <;> rfl

/-- PUT result when the id is found at position `i`. -/
lemma updateTodo_found (s : Store) (p : String) (b : ReqBody) (now : String)
    (i : Nat) (old : Todo)
    (hf : findIndexJs (idMatches (parseIntJS p)) s.todos = some i)
    (hg : s.todos[i]? = some old) :
    updateTodo s p b now =
      ({ status := 200, success := true, data := some (applyPatch old b now),
         message := none },
       { s with todos := s.todos.set i (applyPatch old b now) }) := by
  simp [updateTodo, hf, hg]

/-- PUT result when no index matches. -/
lemma updateTodo_nf (s : Store) (p : String) (b : ReqBody) (now : String)
    (hf : findIndexJs (idMatches (parseIntJS p)) s.todos = none) :
    updateTodo s p b now = (notFoundResp, s) := by
  simp [updateTodo, hf]

/-- PUT result in the unreachable out-of-range branch. -/
lemma updateTodo_oob (s : Store) (p : String) (b : ReqBody) (now : String) (i : Nat)
    (hf : findIndexJs (idMatches (parseIntJS p)) s.todos = some i)
    (hg : s.todos[i]? = none) :
    updateTodo s p b now = (notFoundResp, s) := by
  simp [updateTodo, hf, hg]

/-- Toggle result when the id is found at position `i`. -/
lemma toggleTodo_found (s : Store) (p : String) (now : String)
    (i : Nat) (old : Todo)
    (hf : findIndexJs (idMatches (parseIntJS p)) s.todos = some i)
    (hg : s.todos[i]? = some old) :
    toggleTodo s p now =
      ({ status := 200, success := true, data := some (togglePatch old now),
         message := none },
       { s with todos := s.todos.set i (togglePatch old now) }) := by
  simp [toggleTodo, hf, hg]

/-- Toggle result when no index matches. -/
lemma toggleTodo_nf (s : Store) (p : String) (now : String)
    (hf : findIndexJs (idMatches (parseIntJS p)) s.todos = none) :
    toggleTodo s p now = (notFoundResp, s) := by
  simp [toggleTodo, hf]

/-- Toggle result in the unreachable out-of-range branch. -/
lemma toggleTodo_oob (s : Store) (p : String) (now : String) (i : Nat)
    (hf : findIndexJs (idMatches (parseIntJS p)) s.todos = some i)
    (hg : s.todos[i]? = none) :
    toggleTodo s p now = (notFoundResp, s) := by
  simp [toggleTodo, hf, hg]

/-- DELETE result when the id is found at position `i`. -/
lemma deleteTodo_found (s : Store) (p : String) (i : Nat) (old : Todo)
    (hf : findIndexJs (idMatches (parseIntJS p)) s.todos = some i)
    (hg : s.todos[i]? = some old) :
    deleteTodo s p =
      ({ status := 200, success := true, data := some old, message := none },
       { s with todos := s.todos.eraseIdx i }) := by
  simp [deleteTodo, hf, hg]

/-- DELETE result when no index matches. -/
lemma deleteTodo_nf (s : Store) (p : String)
    (hf : findIndexJs (idMatches (parseIntJS p)) s.todos = none) :
    deleteTodo s p = (notFoundResp, s) := by
  simp [deleteTodo, hf]

/-- DELETE result in the unreachable out-of-range branch. -/
lemma deleteTodo_oob (s : Store) (p : String) (i : Nat)
    (hf : findIndexJs (idMatches (parseIntJS p)) s.todos = some i)
    (hg : s.todos[i]? = none) :
    deleteTodo s p = (notFoundResp, s) := by
  simp [deleteTodo, hf, hg]

/-- Store reached by a successful create. -/
lemma createTodo_success_store {b : ReqBody} {t : String} (s : Store) (now : String)
    (hb : b.title = some t) (ht : t ≠ "") :
    (createTodo s b now).2 =
      { todos := s.todos ++
          [{ id := s.nextId, title := t, description := strOr b.description,
             completed := false, createdAt := now, updatedAt := now }],
        nextId := s.nextId + 1 } := by
  simp [createTodo, hb, ht]

/-- Store left alone by a rejected create. -/
lemma createTodo_fail_store {b : ReqBody} (s : Store) (now : String)
    (hb : b.title = none ∨ b.title = some "") :
    (createTodo s b now).2 = s := by
  rcases hb with hb | hb <;> simp [createTodo, hb]

/-- The counter never decreases across a request. -/
lemma step_nextId_le (s : Store) (op : Op) : s.nextId ≤ (step s op).nextId := by
  cases op with
  | create b now =>
      cases hb : b.title with
      | none => rw [show step s (.create b now) = (createTodo s b now).2 from rfl,
                    createTodo_fail_store s now (Or.inl hb)]
      | some t =>
          by_cases ht : t = ""
          · subst ht
            rw [show step s (.create b now) = (createTodo s b now).2 from rfl,
                createTodo_fail_store s now (Or.inr hb)]
          · rw [show step s (.create b now) = (createTodo s b now).2 from rfl,
                createTodo_success_store s now hb ht]
            exact Nat.le_succ _
  | update p b now => rw [show step s (.update p b now) = (updateTodo s p b now).2 from rfl,
                          updateTodo_nextId]
  | toggle p now => rw [show step s (.toggle p now) = (toggleTodo s p now).2 from rfl,
                        toggleTodo_nextId]
  | del p => rw [show step s (.del p) = (deleteTodo s p).2 from rfl, deleteTodo_nextId]
  | delCompleted => exact le_of_eq rfl
  | get p => rw [show step s (.get p) = (getTodo s p).2 from rfl, getTodo_state]

/-- The counter never decreases across a whole request sequence. -/
lemma foldl_nextId_le (ops : List Op) (s : Store) :
    s.nextId ≤ (ops.foldl step s).nextId := by
  induction ops generalizing s with
  | nil => simp
  | cons op ops ih => exact le_trans (step_nextId_le s op) (ih (step s op))

/-- A successful create bumps the counter by exactly one. -/
lemma create_step_nextId {b : ReqBody} (s : Store) (now : String)
    (hok : createOk b = true) :
    (step s (.create b now)).nextId = s.nextId + 1 := by
  unfold createOk at hok
  cases hb : b.title with
  | none => rw [hb] at hok; simp at hok
  | some t =>
      rw [hb] at hok
      simp at hok
      rw [show step s (.create b now) = (createTodo s b now).2 from rfl,
          createTodo_success_store s now hb hok]

/-- Each request preserves the store invariant. -/
lemma storeInv_step (s : Store) (op : Op) (h : StoreInv s) : StoreInv (step s op) := by
  obtain ⟨hnd, hlt⟩ := h
  cases op with
  | create b now =>
      cases hb : b.title with
      | none =>
          rw [show step s (.create b now) = (createTodo s b now).2 from rfl,
              createTodo_fail_store s now (Or.inl hb)]
          exact ⟨hnd, hlt⟩
      | some t =>
          by_cases ht : t = ""
          · subst ht
            rw [show step s (.create b now) = (createTodo s b now).2 from rfl,
                createTodo_fail_store s now (Or.inr hb)]
            exact ⟨hnd, hlt⟩
          · rw [show step s (.create b now) = (createTodo s b now).2 from rfl,
                createTodo_success_store s now hb ht]
            constructor
            · have hnotin : s.nextId ∉ s.todos.map Todo.id := by
                intro hmem
                obtain ⟨u, hu, hid⟩ := List.mem_map.mp hmem
                have := hlt u hu
                omega
              have h2 := hnd.concat hnotin
              rw [List.concat_eq_append] at h2
              simpa using h2
            · intro u hu
              rcases List.mem_append.mp hu with hu | hu
              · have := hlt u hu
                show u.id < s.nextId + 1
                omega
              · simp at hu
                subst hu
                show s.nextId < s.nextId + 1
                omega
  | update p b now =>
      show StoreInv (updateTodo s p b now).2
      cases hf : findIndexJs (idMatches (parseIntJS p)) s.todos with
      | none =>
          rw [updateTodo_nf s p b now hf]
          exact ⟨hnd, hlt⟩
      | some i =>
          cases hg : s.todos[i]? with
          | none =>
              rw [updateTodo_oob s p b now i hf hg]
              exact ⟨hnd, hlt⟩
          | some old =>
              rw [updateTodo_found s p b now i old hf hg]
              constructor
              · show ((s.todos.set i (applyPatch old b now)).map Todo.id).Nodup
                rw [map_id_set (applyPatch old b now) hg rfl]
                exact hnd
              · show ∀ u ∈ s.todos.set i (applyPatch old b now), u.id < s.nextId
                intro u hu
                rcases List.mem_or_eq_of_mem_set hu with hu | hu
                · exact hlt u hu
                · subst hu
                  exact hlt old (List.getElem?_mem hg)
  | toggle p now =>
      show StoreInv (toggleTodo s p now).2
      cases hf : findIndexJs (idMatches (parseIntJS p)) s.todos with
      | none =>
          rw [toggleTodo_nf s p now hf]
          exact ⟨hnd, hlt⟩
      | some i =>
          cases hg : s.todos[i]? with
          | none =>
              rw [toggleTodo_oob s p now i hf hg]
              exact ⟨hnd, hlt⟩
          | some old =>
              rw [toggleTodo_found s p now i old hf hg]
              constructor
              · show ((s.todos.set i (togglePatch old now)).map Todo.id).Nodup
                rw [map_id_set (togglePatch old now) hg rfl]
                exact hnd
              · show ∀ u ∈ s.todos.set i (togglePatch old now), u.id < s.nextId
                intro u hu
                rcases List.mem_or_eq_of_mem_set hu with hu | hu
                · exact hlt u hu
                · subst hu
                  exact hlt old (List.getElem?_mem hg)
  | del p =>
      show StoreInv (deleteTodo s p).2
      cases hf : findIndexJs (idMatches (parseIntJS p)) s.todos with
      | none =>
          rw [deleteTodo_nf s p hf]
          exact ⟨hnd, hlt⟩
      | some i =>
          cases hg : s.todos[i]? with
          | none =>
              rw [deleteTodo_oob s p i hf hg]
              exact ⟨hnd, hlt⟩
          | some old =>
              rw [deleteTodo_found s p i old hf hg]
              constructor
              · show ((s.todos.eraseIdx i).map Todo.id).Nodup
                exact List.Nodup.sublist
                  (List.Sublist.map Todo.id (List.eraseIdx_sublist s.todos i)) hnd
              · show ∀ u ∈ s.todos.eraseIdx i, u.id < s.nextId
                intro u hu
                exact hlt u (List.Sublist.mem hu (List.eraseIdx_sublist s.todos i))
  | delCompleted =>
      constructor
      · show ((s.todos.filter fun t => !t.completed).map Todo.id).Nodup
        exact List.Nodup.sublist
          (List.Sublist.map Todo.id (List.filter_sublist s.todos)) hnd
      · show ∀ u ∈ s.todos.filter fun t => !t.completed, u.id < s.nextId
        intro u hu
        exact hlt u (List.Sublist.mem hu (List.filter_sublist s.todos))
  | get p =>
      show StoreInv (getTodo s p).2
      rw [getTodo_state]
      exact ⟨hnd, hlt⟩

/-- The invariant holds after any request sequence from any state in it. -/
lemma storeInv_foldl (ops : List Op) (s : Store) (h : StoreInv s) :
    StoreInv (ops.foldl step s) := by
  induction ops generalizing s with
  | nil => exact h
  | cons op ops ih => exact ih (step s op) (storeInv_step s op h)

/-- Every id handed out along the way stays below the final counter. -/
lemma issued_lt_foldl (ops : List Op) (s : Store) :
    ∀ i ∈ issued s ops, i < (ops.foldl step s).nextId := by
  induction ops generalizing s with
  | nil => simp [issued]
  | cons op ops ih =>
      intro i hi
      rw [issued] at hi
      rcases List.mem_append.mp hi with hi | hi
      · cases op with
        | create b now =>
            by_cases hok : createOk b
            · simp only [issuedHere, if_pos hok] at hi
              simp at hi
              have h1 := create_step_nextId s now hok
              have h2 := foldl_nextId_le ops (step s (.create b now))
              show i < (ops.foldl step (step s (.create b now))).nextId
              omega
            · simp only [issuedHere, if_neg hok] at hi
              simp at hi
        | update p b now => simp only [issuedHere] at hi; simp at hi
        | toggle p now => simp only [issuedHere] at hi; simp at hi
        | del p => simp only [issuedHere] at hi; simp at hi
        | delCompleted => simp only [issuedHere] at hi; simp at hi
        | get p => simp only [issuedHere] at hi; simp at hi
      · exact ih (step s op) i hi

/-- C7: starting from the empty store with counter 1, after any request
sequence the ids in the store are pairwise distinct, every stored id is
below `nextId`, and `nextId` strictly exceeds every id ever issued. -/
theorem c7_id_invariant (ops : List Op) :
    ((run ops).todos.map Todo.id).Nodup ∧
    (∀ t ∈ (run ops).todos, t.id < (run ops).nextId) ∧
    (∀ i ∈ issued initStore ops, i < (run ops).nextId) := by
  have h := storeInv_foldl ops initStore ⟨by simp [initStore], by simp [initStore]⟩
  exact ⟨h.1, h.2, issued_lt_foldl ops initStore⟩

/-- Witness for C7 after two creates and a delete. -/
theorem c7_witness :
    ((run [Op.create { title := some "a", description := none, completed := none } "t0",
           Op.create { title := some "b", description := none, completed := none } "t1",
           Op.del "1"]).todos.map Todo.id).Nodup :=
  (c7_id_invariant _).1

/-! ### C8: title non-emptiness -/

/-- C8 as stated fails on the code: the PUT handler copies a present patch
title verbatim, so after a valid create, an update whose body carries
`title: ""` leaves a stored todo with an empty title. -/
theorem c8_counterexample :
    (run [Op.create { title := some "a", description := none, completed := none } "t0",
          Op.update "1" { title := some "", description := none, completed := none }
            "t1"]).todos.map Todo.title = [""] := by
  decide

/-- One request preserves non-empty titles when its patch does not carry an
explicitly empty title. -/
lemma titles_step (s : Store) (op : Op) (hs : ∀ t ∈ s.todos, t.title ≠ "")
    (hop : patchTitleOk op = true) :
    ∀ t ∈ (step s op).todos, t.title ≠ "" := by
  cases op with
  | create b now =>
      cases hb : b.title with
      | none =>
          rw [show step s (.create b now) = (createTodo s b now).2 from rfl,
              createTodo_fail_store s now (Or.inl hb)]
          exact hs
      | some t =>
          by_cases ht : t = ""
          · subst ht
            rw [show step s (.create b now) = (createTodo s b now).2 from rfl,
                createTodo_fail_store s now (Or.inr hb)]
            exact hs
          · rw [show step s (.create b now) = (createTodo s b now).2 from rfl,
                createTodo_success_store s now hb ht]
            intro u hu
            rcases List.mem_append.mp hu with hu | hu
            · exact hs u hu
            · simp at hu
              subst hu
              exact ht
  | update p b now =>
      show ∀ t ∈ (updateTodo s p b now).2.todos, t.title ≠ ""
      cases hf : findIndexJs (idMatches (parseIntJS p)) s.todos with
      | none =>
          rw [updateTodo_nf s p b now hf]
          exact hs
      | some i =>
          cases hg : s.todos[i]? with
          | none =>
              rw [updateTodo_oob s p b now i hf hg]
              exact hs
          | some old =>
              rw [updateTodo_found s p b now i old hf hg]
              intro u hu
              rcases List.mem_or_eq_of_mem_set hu with hu | hu
              · exact hs u hu
              · subst hu
                show b.title.getD old.title ≠ ""
                cases hb : b.title with
                | none => exact hs old (List.getElem?_mem hg)
                | some x =>
                    simp only [Option.getD_some]
                    simp only [patchTitleOk] at hop
                    rw [hb] at hop
                    simpa using hop
  | toggle p now =>
      show ∀ t ∈ (toggleTodo s p now).2.todos, t.title ≠ ""
      cases hf : findIndexJs (idMatches (parseIntJS p)) s.todos with
      | none =>
          rw [toggleTodo_nf s p now hf]
          exact hs
      | some i =>
          cases hg : s.todos[i]? with
          | none =>
              rw [toggleTodo_oob s p now i hf hg]
              exact hs
          | some old =>
              rw [toggleTodo_found s p now i old hf hg]
              intro u hu
              rcases List.mem_or_eq_of_mem_set hu with hu | hu
              · exact hs u hu
              · subst hu
                exact hs old (List.getElem?_mem hg)
  | del p =>
      show ∀ t ∈ (deleteTodo s p).2.todos, t.title ≠ ""
      cases hf : findIndexJs (idMatches (parseIntJS p)) s.todos with
      | none =>
          rw [deleteTodo_nf s p hf]
          exact hs
      | some i =>
          cases hg : s.todos[i]? with
          | none =>
              rw [deleteTodo_oob s p i hf hg]
              exact hs
          | some old =>
              rw [deleteTodo_found s p i old hf hg]
              intro u hu
              exact hs u (List.Sublist.mem hu (List.eraseIdx_sublist s.todos i))
  | delCompleted =>
      intro u hu
      exact hs u (List.Sublist.mem hu (List.filter_sublist s.todos))
  | get p =>
      rw [show step s (.get p) = (getTodo s p).2 from rfl, getTodo_state]
      exact hs

/-- Non-empty titles are preserved along a whole benign request sequence. -/
lemma titles_foldl (ops : List Op) (s : Store)
    (hs : ∀ t ∈ s.todos, t.title ≠ "")
    (h : ∀ op ∈ ops, patchTitleOk op = true) :
    ∀ t ∈ (ops.foldl step s).todos, t.title ≠ "" := by
  induction ops generalizing s with
  | nil => exact hs
  | cons op ops ih =>
      exact ih (step s op) (titles_step s op hs (h op (by simp)))
        (fun o ho => h o (by simp [ho]))

/-- C8 amended: create requires a non-empty title, and every stored todo
keeps a non-empty title under any request sequence in which no update patch
carries an explicitly empty title; update copies a present patch title
verbatim, so that proviso is necessary. -/
theorem c8_amended_title_invariant (ops : List Op)
    (h : ∀ op ∈ ops, patchTitleOk op = true) :
    ∀ t ∈ (run ops).todos, t.title ≠ "" :=
  titles_foldl ops initStore (by simp [initStore]) h

/-- Witness for the amended C8 on a create followed by a benign update: the
stored todo after the two requests keeps its non-empty title. -/
theorem c8_witness :
    ({ id := 1, title := "b", description := "", completed := false,
       createdAt := "t0", updatedAt := "t1" } : Todo).title ≠ "" :=
  c8_amended_title_invariant
    [Op.create { title := some "a", description := none, completed := none } "t0",
     Op.update "1" { title := some "b", description := none, completed := none } "t1"]
    (by decide) _ (by decide)

/-! ### C10: ids with a digit prefix -/

/-- Enumeration of the modelled `parseInt` whitespace characters. -/
lemma ws_elim {c : Char} (h : isJsWhitespace c = true) :
    c = ' ' ∨ c = '\t' ∨ c = '\n' ∨ c = '\r' ∨ c = '\x0b' ∨ c = '\x0c' := by
  have h2 : (c == ' ' || c == '\t' || c == '\n' || c == '\r' || c == '\x0b'
      || c == '\x0c') = true := h
  simp only [Bool.or_eq_true, beq_iff_eq] at h2
  tauto

/-- A decimal digit is not whitespace. -/
lemma isDigit_not_ws {c : Char} (h : c.isDigit = true) : isJsWhitespace c = false := by
  cases hws : isJsWhitespace c with
  | false => rfl
  | true =>
      rcases ws_elim hws with h1 | h1 | h1 | h1 | h1 | h1 <;>
        (subst h1; exact absurd h (by decide))

/-- A digit is distinct (under `==`) from any non-digit character. -/
lemma isDigit_beq_ne {c d : Char} (h : c.isDigit = true) (hd : d.isDigit = false) :
    (c == d) = false := by
  cases hbe : c == d with
  | false => rfl
  | true =>
      have hcd : c = d := by simpa using hbe
      subst hcd
      simp [h] at hd

/-- `takeWhile` consumes exactly a satisfying block when the next element
fails the predicate. -/
lemma takeWhile_append_block {α : Type _} {p : α → Bool} (l : List α) (c : α)
    (r : List α) (hl : ∀ x ∈ l, p x = true) (hc : p c = false) :
    (l ++ c :: r).takeWhile p = l := by
  induction l with
  | nil => simp [hc]
  | cons x xs ih =>
      simp only [List.cons_append, List.takeWhile_cons_of_pos (hl x (by simp))]
      rw [ih (fun y hy => hl y (by simp [hy]))]

/-- `dropWhile` on whitespace keeps a digit-headed list intact. -/
lemma dropWhile_ws_digit {cs : List Char} {d : Char} (hd : d.isDigit = true) :
    (d :: cs).dropWhile isJsWhitespace = d :: cs := by
  simp [List.dropWhile_cons, isDigit_not_ws hd]

/-- No sign is consumed from a digit-headed list. -/
lemma parseSign_digit {cs : List Char} {d : Char} (hd : d.isDigit = true) :
    parseSign (d :: cs) = (1, d :: cs) := by
  simp [parseSign, isDigit_beq_ne hd (by decide : ('-').isDigit = false),
        isDigit_beq_ne hd (by decide : ('+').isDigit = false)]

/-- The hexadecimal marker is absent from a digit block followed by a
non-`x` continuation. -/
lemma startsHex_false_of (p : List Char) (c : Char) (r : List Char)
    (hp : p ≠ []) (hdig : ∀ d ∈ p, d.isDigit = true)
    (hhex : ¬ (p = ['0'] ∧ (c = 'x' ∨ c = 'X'))) :
    startsHex (p ++ c :: r) = false := by
  cases p with
  | nil => exact absurd rfl hp
  | cons d p' =>
      cases p' with
      | nil =>
          simp only [List.cons_append, List.nil_append, startsHex]
          by_cases hd0 : d = '0'
          · subst hd0
            have hcx : ¬ (c = 'x' ∨ c = 'X') := fun hcc => hhex ⟨rfl, hcc⟩
            have h1 : (c == 'x') = false := by
              cases hx : c == 'x' with
              | false => rfl
              | true => exact absurd (Or.inl (by simpa using hx)) hcx
            have h2 : (c == 'X') = false := by
              cases hx : c == 'X' with
              | false => rfl
              | true => exact absurd (Or.inr (by simpa using hx)) hcx
            simp [h1, h2]
          · simp [hd0]
      | cons d2 p'' =>
          simp only [List.cons_append, startsHex]
          have h2 := hdig d2 (by simp)
          simp [isDigit_beq_ne h2 (by decide : ('x').isDigit = false),
                isDigit_beq_ne h2 (by decide : ('X').isDigit = false)]

/-- Unfolding of `parseIntJS` on an explicit character list. -/
lemma parseIntJS_mk (l : List Char) :
    parseIntJS (String.mk l) =
      if startsHex (parseSign (l.dropWhile isJsWhitespace)).2 then
        parseHexDigits (parseSign (l.dropWhile isJsWhitespace)).1
          ((parseSign (l.dropWhile isJsWhitespace)).2.drop 2)
      else
        parseDecDigits (parseSign (l.dropWhile isJsWhitespace)).1
          (parseSign (l.dropWhile isJsWhitespace)).2 := rfl

/-- Value `parseInt` assigns to a digit block followed by a non-digit, in
the absence of the hexadecimal marker. -/
lemma parseIntJS_digit_block (p : List Char) (c : Char) (r : List Char)
    (hp : p ≠ []) (hdig : ∀ d ∈ p, d.isDigit = true) (hc : c.isDigit = false)
    (hhex : ¬ (p = ['0'] ∧ (c = 'x' ∨ c = 'X'))) :
    parseIntJS (String.mk (p ++ c :: r)) =
      some ((digitsToNat 10 digitVal p : Nat) : Int) := by
  obtain ⟨d, p', rfl⟩ : ∃ d p', p = d :: p' := by
    cases p with
    | nil => exact absurd rfl hp
    | cons d p' => exact ⟨d, p', rfl⟩
  have hsh := startsHex_false_of (d :: p') c r hp hdig hhex
  rw [List.cons_append] at hsh
  have htw := takeWhile_append_block p' c r
    (fun y hy => hdig y (by simp [hy])) hc
  rw [parseIntJS_mk, List.cons_append, dropWhile_ws_digit (hdig d (by simp)),
      parseSign_digit (hdig d (by simp))]
  simp only [hsh, Bool.false_eq_true, if_false, parseDecDigits,
    List.takeWhile_cons_of_pos (hdig d (by simp)), htw]
  simp

/-- C10 amended: a `:id` made of a decimal-digit block followed by a
non-digit continuation parses to the value of that block — except for the
hexadecimal marker `0x`/`0X`, which `parseInt` reads in base 16 — and when
a todo with the parsed id exists, get, update, toggle and delete all answer
200 on that todo rather than 404. -/
theorem c10_amended_digit_prefix_id (p : List Char) (c : Char) (r : List Char)
    (hp : p ≠ []) (hdig : ∀ d ∈ p, d.isDigit = true) (hc : c.isDigit = false)
    (hhex : ¬ (p = ['0'] ∧ (c = 'x' ∨ c = 'X'))) :
    parseIntJS (String.mk (p ++ c :: r)) = some ((digitsToNat 10 digitVal p : Nat) : Int) ∧
    (∀ s t, s.todos.find? (idMatches (some ((digitsToNat 10 digitVal p : Nat) : Int))) = some t →
        getTodo s (String.mk (p ++ c :: r)) =
          ({ status := 200, success := true, data := some t, message := none }, s)) ∧
    (∀ s b now i old,
        findIndexJs (idMatches (some ((digitsToNat 10 digitVal p : Nat) : Int))) s.todos = some i →
        s.todos[i]? = some old →
        (updateTodo s (String.mk (p ++ c :: r)) b now).1.status = 200) ∧
    (∀ s now i old,
        findIndexJs (idMatches (some ((digitsToNat 10 digitVal p : Nat) : Int))) s.todos = some i →
        s.todos[i]? = some old →
        (toggleTodo s (String.mk (p ++ c :: r)) now).1.status = 200) ∧
    (∀ s i old,
        findIndexJs (idMatches (some ((digitsToNat 10 digitVal p : Nat) : Int))) s.todos = some i →
        s.todos[i]? = some old →
        (deleteTodo s (String.mk (p ++ c :: r))).1.status = 200) := by
  have hparse := parseIntJS_digit_block p c r hp hdig hc hhex
  refine ⟨hparse, ?_, ?_, ?_, ?_⟩
  · intro s t hfind
    simp only [getTodo, hparse, hfind]
  · intro s b now i old hf hg
    have hf' : findIndexJs (idMatches (parseIntJS (String.mk (p ++ c :: r)))) s.todos
        = some i := by rw [hparse]; exact hf
    rw [updateTodo_found s _ b now i old hf' hg]
  · intro s now i old hf hg
    have hf' : findIndexJs (idMatches (parseIntJS (String.mk (p ++ c :: r)))) s.todos
        = some i := by rw [hparse]; exact hf
    rw [toggleTodo_found s _ now i old hf' hg]
  · intro s i old hf hg
    have hf' : findIndexJs (idMatches (parseIntJS (String.mk (p ++ c :: r)))) s.todos
        = some i := by rw [hparse]; exact hf
    rw [deleteTodo_found s _ i old hf' hg]

/-- Witness for the amended C10 at the id "1abc". -/
theorem c10_witness :
    parseIntJS (String.mk (['1'] ++ 'a' :: ['b', 'c'])) =
      some ((digitsToNat 10 digitVal ['1'] : Nat) : Int) :=
  (c10_amended_digit_prefix_id ['1'] 'a' ['b', 'c'] (by decide) (by decide)
    (by decide) (by decide)).1

/-- C10 as stated fails at "0xa": its decimal-digit prefix is "0" followed
by the non-digits "xa", yet `parseInt` reads the whole string as
hexadecimal 10; with a todo of id 10 stored (and none of id 0), get
answers 200 with the id-10 todo instead of treating the id as 0. -/
theorem c10_counterexample :
    ("0xa".data = '0' :: 'x' :: ['a'] ∧ Char.isDigit '0' = true ∧
     Char.isDigit 'x' = false ∧ Char.isDigit 'a' = false) ∧
    parseIntJS "0xa" = some 10 ∧
    ¬ parseIntJS "0xa" = some ((digitsToNat 10 digitVal ['0'] : Nat) : Int) ∧
    getTodo { todos := [{ id := 10, title := "t", description := "",
                          completed := false, createdAt := "c", updatedAt := "u" }],
              nextId := 11 } "0xa" =
      ({ status := 200, success := true,
         data := some { id := 10, title := "t", description := "",
                        completed := false, createdAt := "c", updatedAt := "u" },
         message := none },
       { todos := [{ id := 10, title := "t", description := "",
                     completed := false, createdAt := "c", updatedAt := "u" }],
         nextId := 11 }) := by
  decide

end TodoServer
